import Mathlib

/-!
Verification development for the data-transformation pipeline in
pyveg/src/data_analysis_utils.py of the monitoring-ecosystem-resilience
repository.

The Python functions are shallowly embedded as Lean functions:

* dataframes become lists of row structures, with a column holding either
  a value or none (none models a missing cell / NaN);
* floating point metric values and coordinates are idealised as rationals
  (or as an arbitrary linearly ordered ring where only ring operations and
  comparisons occur); NaN cells are modelled with Option;
* Python exceptions become an Except error result;
* the filesystem is passed in explicitly as the list of existing paths.

Each embedded definition cites the lines of data_analysis_utils.py that it
models.
-/

/-- Python exception values raised by the functions under study.  A bare
raise FileNotFoundError statement (lines 31 and 173) produces an exception
object whose message is the empty string.  keyError models the pandas
KeyError of a column slice on a missing column (line 272). -/
inductive PyError where
  | fileNotFound (msg : String)
  | runtimeError (msg : String)
  | keyError (msg : String)
deriving DecidableEq

deriving instance DecidableEq for Except

/-- One cell update in an association-list row: mirrors the pandas cell
assignment df.loc[index, col] = v, which overwrites the column if the row
already has it and otherwise appends a new column for this row (other rows
simply lack the column, which models their NaN in that column). -/
def setMetric : List (String × ℚ) → String → ℚ → List (String × ℚ)
  | [], k, v => [(k, v)]
  | (k', v') :: rest, k, v =>
    if k' = k then (k, v) :: rest else (k', v') :: setMetric rest k v

/-- Reading a cell of an association-list row; none models a NaN cell. -/
def lookupMetric (ms : List (String × ℚ)) (k : String) : Option ℚ :=
  (ms.find? (fun p => decide (p.1 = k))).map (fun p => p.2)

/-- One vegetation leaf record of the input JSON (lines 64 to 66): the
fields read from a space_point object. -/
structure SpacePoint where
  date : String
  latitude : ℚ
  longitude : ℚ
  offset50 : ℚ
deriving DecidableEq

/-- One row of the vegetation dataframe veg_df built by
read_json_to_dataframe (line 39): the fixed columns date, lat, long plus
the per-collection metric columns. -/
structure VegRow where
  date : String
  lat : ℚ
  long : ℚ
  metrics : List (String × ℚ)
deriving DecidableEq

/-- One row of the weather dataframe weather_df (line 40). -/
structure WeatherRow where
  date : String
  metrics : List (String × ℚ)
deriving DecidableEq

/-- Number of rows of veg_df matching the (date, lat, long) triple: the
length of matched_indices computed at lines 69 and 70. -/
def countTriple (df : List VegRow) (d : String) (la lo : ℚ) : ℕ :=
  (df.filter (fun r => decide (r.date = d ∧ r.lat = la ∧ r.long = lo))).length

/-- Processing of one vegetation space_point record (lines 61 to 94).
The update branch rewrites the unique matching row in place, which equals
the source updating the row at matched_indices[0] because that branch runs
only when exactly one row matches. -/
def addVegRecord (df : List VegRow) (collection_name : String)
    (sp : SpacePoint) : Except PyError (List VegRow) :=
  if countTriple df sp.date sp.latitude sp.longitude = 0 then
    .ok (df ++ [⟨sp.date, sp.latitude, sp.longitude,
      [(collection_name ++ "_offset50", sp.offset50)]⟩])
  else if countTriple df sp.date sp.latitude sp.longitude = 1 then
    .ok (df.map (fun r =>
      if r.date = sp.date ∧ r.lat = sp.latitude ∧ r.long = sp.longitude then
        ⟨r.date, r.lat, r.long,
          setMetric r.metrics (collection_name ++ "_offset50") sp.offset50⟩
      else r))
  else .error (.runtimeError "Error when building DataFrame, check input json.")

/-- Folding the vegetation records through addVegRecord, stopping at the
first raised exception (the RuntimeError at line 94 propagates out of the
whole function). -/
def ingestVegRecords : List (String × SpacePoint) → List VegRow →
    Except PyError (List VegRow)
  | [], df => .ok df
  | rc :: rest, df =>
    match addVegRecord df rc.1 rc.2 with
    | .error e => .error e
    | .ok df' => ingestVegRecords rest df'

/-- One collection of the input JSON as seen by read_json_to_dataframe.
The time-series-data object is given in both of its possible parses of a
schema-conforming file: vegTsd is the per-date list of space points read
by the vegetation loop (lines 54 to 61, none modelling a null entry) and
weatherTsd is the per-date metric map read by the weather loop (line 108).
The code selects the parse from the declared type tag alone (lines 50 and
104). -/
structure Collection where
  name : String
  ctype : String
  vegTsd : List (Option (List SpacePoint))
  weatherTsd : List (String × Option (List (String × ℚ)))

/-- The vegetation records in processing order: the three nested loops of
lines 47 to 61 flattened (collections in file order, skipping those whose
type is not vegetation; per collection the date entries in order, skipping
null ones; per date the space points in order). -/
def vegRecords (data : List Collection) : List (String × SpacePoint) :=
  data.flatMap (fun coll =>
    if coll.ctype = "vegetation" then
      coll.vegTsd.flatMap (fun tp =>
        match tp with
        | none => []
        | some sps => sps.map (fun sp => (coll.name, sp)))
    else [])

/-- The vegetation half of read_json_to_dataframe (lines 39 to 94). -/
def ingestVeg (data : List Collection) : Except PyError (List VegRow) :=
  ingestVegRecords (vegRecords data) []

/-- Number of rows of weather_df with the given date: the length of
matched_indices at line 115. -/
def countDateRows (wdf : List WeatherRow) (d : String) : ℕ :=
  (wdf.filter (fun r => decide (r.date = d))).length

/-- Writing a whole metric map into one row, one cell at a time: the loops
at lines 121 to 123 and 134 to 137. -/
def setMetrics (ms : List (String × ℚ)) (vals : List (String × ℚ)) :
    List (String × ℚ) :=
  vals.foldl (fun a p => setMetric a p.1 p.2) ms

/-- Processing of one weather date entry (lines 108 to 140).  A null entry
is skipped (line 111).  With no matching row, the loop at lines 121 to 123
creates a row by cell assignments, hence an empty metric map creates no
row at all.  With one matching row the metrics are written into it, and
with several matching rows a RuntimeError is raised (line 140). -/
def addWeatherEntry (wdf : List WeatherRow) (date : String)
    (vals : Option (List (String × ℚ))) : Except PyError (List WeatherRow) :=
  match vals with
  | none => .ok wdf
  | some values =>
    if countDateRows wdf date = 0 then
      if values.isEmpty then .ok wdf
      else .ok (wdf ++ [⟨date, setMetrics [] values⟩])
    else if countDateRows wdf date = 1 then
      .ok (wdf.map (fun r =>
        if r.date = date then ⟨r.date, setMetrics r.metrics values⟩ else r))
    else .error (.runtimeError "Error when building DataFrame, check input json.")

/-- Folding the weather entries through addWeatherEntry. -/
def ingestWeatherEntries : List (String × Option (List (String × ℚ))) →
    List WeatherRow → Except PyError (List WeatherRow)
  | [], wdf => .ok wdf
  | e :: rest, wdf =>
    match addWeatherEntry wdf e.1 e.2 with
    | .error er => .error er
    | .ok wdf' => ingestWeatherEntries rest wdf'

/-- The weather date entries in processing order: the loops of lines 101
to 108 flattened (collections whose type is vegetation are skipped at
line 104, so every other type tag is ingested as weather). -/
def weatherEntries (data : List Collection) :
    List (String × Option (List (String × ℚ))) :=
  data.flatMap (fun coll =>
    if coll.ctype = "vegetation" then [] else coll.weatherTsd)

/-- The weather half of read_json_to_dataframe (lines 96 to 140). -/
def ingestWeather (data : List Collection) : Except PyError (List WeatherRow) :=
  ingestWeatherEntries (weatherEntries data) []

/-- One row of the merged dataframe of line 143.  The vegetation columns
(lat, long and the vegetation metrics) are none for a date present only in
the weather table, and symmetrically for the weather columns. -/
structure MergedRow where
  date : String
  vegPart : Option VegRow
  weatherPart : Option WeatherRow
deriving DecidableEq

/-- The merged rows produced by one left row in pd.merge on date with
how equal to outer: one output row per matching right row, or a single
right-null row when no right row matches. -/
def vegMergeRows (wdf : List WeatherRow) (v : VegRow) : List MergedRow :=
  let ws := wdf.filter (fun w => decide (w.date = v.date))
  if ws.length = 0 then [⟨v.date, some v, none⟩]
  else ws.map (fun w => ⟨v.date, some v, some w⟩)

/-- pd.merge(veg_df, weather_df, on=date, how=outer) at line 143: every
left row crossed with its matching right rows (null-extended when there is
no match), followed by the unmatched right rows null-extended.  The outer
merge of pandas sorts the result by key, which permutes rows only and is
irrelevant to the properties studied here. -/
def mergeOuter (vdf : List VegRow) (wdf : List WeatherRow) : List MergedRow :=
  (vdf.map (vegMergeRows wdf)).flatten ++
  (wdf.filter (fun w => decide (¬ vdf.any (fun v => decide (v.date = w.date))))).map
    (fun w => ⟨w.date, none, some w⟩)

/-- Lines 146 to 148: a point geometry built from the lat and long cells of
each merged row.  For a weather-only row those cells are NaN, modelled here
by a none geometry. -/
def addGeometry (m : List MergedRow) : List (MergedRow × Option (ℚ × ℚ)) :=
  m.map (fun r => (r, r.vegPart.map (fun v => (v.lat, v.long))))

/-- read_json_to_dataframe (lines 15 to 150).  The filesystem is passed as
the list fs of existing paths and the parsed content of the file as data
(what json.load would return for it); the function first checks existence
(lines 30 and 31) and raises a bare FileNotFoundError, whose message is
empty, when the path is missing. -/
def read_json_to_dataframe (fs : List String) (filename : String)
    (data : List Collection) :
    Except PyError (List (MergedRow × Option (ℚ × ℚ))) :=
  if fs.contains filename then
    match ingestVeg data with
    | .error e => .error e
    | .ok vdf =>
      match ingestWeather data with
      | .error e => .error e
      | .ok wdf => .ok (addGeometry (mergeOuter vdf wdf))
  else .error (.fileNotFound "")

/-- JSON values as far as variable_read_json_to_dataframe inspects them:
numbers, strings and objects. -/
inductive JVal where
  | num (q : ℚ)
  | str (s : String)
  | obj (fields : List (String × JVal))

/-- The isinstance(.., dict) test of line 196. -/
def isObj : JVal → Bool
  | .obj _ => true
  | _ => false

/-- Python dict assignment time_point[key] = v (line 206): overwrite the
existing binding in place, or append a new one. -/
def setJField : List (String × JVal) → String → JVal → List (String × JVal)
  | [], k, v => [(k, v)]
  | (k', v') :: rest, k, v =>
    if k' = k then (k, v) :: rest else (k', v') :: setJField rest k v

/-- Processing of one date entry of a collection by
variable_read_json_to_dataframe (lines 189 to 208).  A null or empty entry
is skipped; when the first value of the entry is an object, every value is
appended to rows_list as its own row; otherwise the date is injected into
the entry and the whole entry is appended as a single row. -/
def processEntry (rows : List JVal) (date : String)
    (tp : Option (List (String × JVal))) : List JVal :=
  match tp with
  | none => rows
  | some fields =>
    match fields with
    | [] => rows
    | f :: _ =>
      if isObj f.2 then rows ++ fields.map (fun p => p.2)
      else rows ++ [JVal.obj (setJField fields "date" (JVal.str date))]

/-- rows_list for one collection (lines 186 to 210): the date entries
folded through processEntry in order. -/
def collectRows (tsd : List (String × Option (List (String × JVal)))) :
    List JVal :=
  tsd.foldl (fun rows e => processEntry rows e.1 e.2) []

/-- variable_read_json_to_dataframe (lines 155 to 215): existence check
with a bare FileNotFoundError (lines 172 and 173), then one dataframe per
collection built from its rows_list. -/
def variable_read_json_to_dataframe (fs : List String) (filename : String)
    (data : List (String × List (String × Option (List (String × JVal))))) :
    Except PyError (List (String × List JVal)) :=
  if fs.contains filename then
    .ok (data.map (fun c => (c.1, collectRows c.2)))
  else .error (.fileNotFound "")

/-- One row of the dataframe handed to convert_to_geopandas: lat and long
columns plus a possibly absent geometry column. -/
structure LLRow where
  lat : ℚ
  long : ℚ
  geometry : Option (ℚ × ℚ)

/-- convert_to_geopandas (lines 218 to 234), with Python reference
semantics made explicit.  The first component is the returned value: the
function body has no return statement, so the call returns None.  The
second component is the argument dataframe as the caller sees it after the
call: the column assignment at line 232 mutates it in place, adding the
geometry column, while the rebinding of the local name df at line 234 does
not escape the function. -/
def convert_to_geopandas (df : List LLRow) : Option (List LLRow) × List LLRow :=
  (none, df.map (fun r => ⟨r.lat, r.long, some (r.lat, r.long)⟩))

/-- One sub-location row of a vegetation collection dataframe as consumed
by make_time_series: the date plus the numeric columns of the row as an
association list (latitude, longitude, offset50 and any further metric
column the collection carries); a column missing from a row is a NaN
cell. -/
structure TSRow where
  date : String
  cells : List (String × ℚ)

/-- Reading a cell of a row whose columns hold Option values; the outer
none means the row lacks the column altogether. -/
def lookupCell (ms : List (String × Option ℚ)) (k : String) :
    Option (Option ℚ) :=
  (ms.find? (fun p => decide (p.1 = k))).map (fun p => p.2)

/-- The distinct numeric column names of the table: the columns over which
groups.mean() and groups.std() are computed at lines 265 and 266.  Only
which names occur matters to the properties below, not their order. -/
def colNames (df : List TSRow) : List String :=
  (df.flatMap (fun r => r.cells.map (fun p => p.1))).dedup

/-- The group keys of df.groupby(date) at line 262: the distinct dates of
the table.  pandas lists group keys in sorted order; only which keys exist
and what rows each group holds matter below, so the dedup order is not
fixed here. -/
def groupDates (df : List TSRow) : List String :=
  (df.map (fun r => r.date)).dedup

/-- The values of one numeric column within one date group, in row order,
skipping NaN cells (rows lacking the column), as the pandas mean and std
reductions do. -/
def groupVals (df : List TSRow) (d : String) (c : String) : List ℚ :=
  (df.filter (fun r => decide (r.date = d))).filterMap
    (fun r => lookupMetric r.cells c)

/-- Mean of a list of rationals. -/
def qmean (vs : List ℚ) : ℚ := vs.sum / (vs.length : ℚ)

/-- Sum of squared deviations from the mean, over the reals. -/
def sumSqDev (vs : List ℚ) : ℝ :=
  (vs.map (fun v => ((v : ℝ) - (qmean vs : ℝ)) * ((v : ℝ) - (qmean vs : ℝ)))).sum

/-- groups.mean() at line 265 for one date group: one mean cell per
numeric column of the table, NaN (none) when the group holds no value in
that column. -/
def groupbyMean (df : List TSRow) (d : String) : List (String × Option ℚ) :=
  (colNames df).map (fun c =>
    (c, if (groupVals df d c).isEmpty then none
        else some (qmean (groupVals df d c))))

/-- groups.std() at line 266 for one column of one date group: the pandas
sample standard deviation (ddof = 1) of the values present, sqrt of the
squared deviations divided by k - 1.  With fewer than two values the
division is by zero and pandas yields NaN, modelled by none. -/
noncomputable def sampleStd (vs : List ℚ) : Option ℝ :=
  if vs.length ≤ 1 then none
  else some (Real.sqrt (sumSqDev vs / ((vs.length : ℝ) - 1)))

/-- Lines 269 and 272: the rename turns the offset50 column of the std
table into offset50_std, and the slice stds[[offset50_std]] then keeps
that single column, discarding the std of every other metric.  This is
the column of the original table whose renamed name is offset50_std (the
offset50 column, for a table of the usual schema); none when no column
renames to offset50_std, in which case the slice raises a KeyError. -/
def stdSourceCol (df : List TSRow) : Option String :=
  (colNames df).find? (fun c =>
    decide ((if c = "offset50" then "offset50_std" else c) = "offset50_std"))

/-- One aggregated row of the time series after the merge at line 273:
the date, one mean cell per numeric column of the input table, and the
single offset50_std column kept by the slice at line 272 (no other metric
keeps a std column). -/
structure AggRow where
  date : String
  means : List (String × Option ℚ)
  offset50_std : Option ℝ

/-- The rows of the merged means-and-std table, one per distinct date
(the merge at line 273 is an inner join of two tables with the same date
keys); c is the column whose std survived the slice at line 272. -/
noncomputable def aggRowsOf (df : List TSRow) (c : String) : List AggRow :=
  (groupDates df).map (fun d =>
    ⟨d, groupbyMean df d, sampleStd (groupVals df d c)⟩)

/-- The per-date aggregation of lines 262 to 273: group by date, take the
mean of every numeric column and the std of the one column kept by the
slice at line 272; the slice raises a KeyError when no column renames to
offset50_std. -/
noncomputable def aggregateByDate (df : List TSRow) :
    Except PyError (List AggRow) :=
  match stdSourceCol df with
  | none => .error (.keyError "offset50_std not in index")
  | some c => .ok (aggRowsOf df c)

/-- The vegetation-collection test of line 259: the name is COPERNICUS/S2
or contains LANDSAT as a substring. -/
def isVegCollection (name : String) : Bool :=
  decide (name = "COPERNICUS/S2") || decide ("LANDSAT".data <:+: name.data)

/-- make_time_series (lines 237 to 276): each vegetation collection of
the dict is replaced by its per-date aggregation, the other collections
pass through unchanged; the KeyError of the slice at line 272 propagates
out of the whole call at the first vegetation collection it hits. -/
noncomputable def make_time_series : List (String × List TSRow) →
    Except PyError (List (String × (List TSRow ⊕ List AggRow)))
  | [] => .ok []
  | p :: rest =>
    if isVegCollection p.1 then
      match aggregateByDate p.2 with
      | .error e => .error e
      | .ok agg =>
        match make_time_series rest with
        | .error e => .error e
        | .ok out => .ok ((p.1, Sum.inr agg) :: out)
    else
      match make_time_series rest with
      | .error e => .error e
      | .ok out => .ok ((p.1, Sum.inl p.2) :: out)

section Coarse

variable {A : Type} [LinearOrderedRing A]

/-- One row of the geo-dataframe handed to coarse_dataframe: a date and a
point geometry.  The coordinate type is any linearly ordered ring, since
the clustering only subtracts, multiplies, adds and compares. -/
structure GeoRow (A : Type) where
  date : String
  x : A
  y : A

/-- Placeholder row for out-of-range indexing (never reached by the loop,
which only touches indices below the length). -/
def defaultGeoRow : GeoRow A := ⟨"", 0, 0⟩

/-- Squared planar distance between two row geometries.  The source uses
the shapely euclidean distance; every use below (sorting, distinct-value
counting, threshold comparison) is invariant under the strictly monotone
square root, so the assigned categories are identical. -/
def sqDist (a b : GeoRow A) : A :=
  (a.x - b.x) * (a.x - b.x) + (a.y - b.y) * (a.y - b.y)

/-- Stable insertion into a list sorted by the distance component. -/
def insertTriple (t : ℕ × A × Option ℕ) :
    List (ℕ × A × Option ℕ) → List (ℕ × A × Option ℕ)
  | [] => [t]
  | u :: us => if t.2.1 ≤ u.2.1 then t :: u :: us else u :: insertTriple t us

/-- distances.sort(key) at line 370: a stable sort on the distance
component, as in Python. -/
def sortTriples : List (ℕ × A × Option ℕ) → List (ℕ × A × Option ℕ)
  | [] => []
  | t :: ts => insertTriple t (sortTriples ts)

/-- Sorted insertion of a value. -/
def insertVal (x : A) : List A → List A
  | [] => [x]
  | y :: ys => if x ≤ y then x :: y :: ys else y :: insertVal x ys

/-- Insertion sort of values. -/
def sortVals : List A → List A
  | [] => []
  | x :: xs => insertVal x (sortVals xs)

/-- np.unique at line 376: the distinct values in ascending order
(sorting followed by removal of adjacent duplicates). -/
def np_unique (l : List A) : List A := (sortVals l).destutter (· ≠ ·)

/-- np.max at line 376, which raises on an empty array: none models that
error branch. -/
def maxOfList : List A → Option A
  | [] => none
  | x :: xs => some (xs.foldl max x)

/-- The distances list of line 369, for current row n: one triple per row
i of the whole table, (i, squared distance from row i to row n, third
component).  The third component mirrors the source exactly: the source
writes data_df[category].iloc[n], the category of the CURRENT row n, not
of the enumerated row i, so it is the same value for every triple. -/
def distancesAt (rows : List (GeoRow A)) (cats : List (Option ℕ)) (n : ℕ) :
    List (ℕ × A × Option ℕ) :=
  (List.range rows.length).map (fun i =>
    (i, sqDist (rows.getD i defaultGeoRow) (rows.getD n defaultGeoRow),
      cats.getD n none))

/-- Lines 370 and 373: the distances sorted, then filtered to the triples
whose third component is unassigned.  Because of the iloc[n] slip noted on
distancesAt, the third component is the category of row n itself, which is
unassigned whenever this code runs, so the filter keeps every triple. -/
def filteredAt (rows : List (GeoRow A)) (cats : List (Option ℕ)) (n : ℕ) :
    List (ℕ × A × Option ℕ) :=
  (sortTriples (distancesAt rows cats n)).filter (fun t => decide (t.2.2 = none))

/-- data_df.loc[indexes, category] = str(category) at line 383: set the
category cell of every listed row index. -/
def assignCats (cats : List (Option ℕ)) (idxs : List ℕ) (c : ℕ) :
    List (Option ℕ) :=
  idxs.foldl (fun cs i => cs.set i (some c)) cats

/-- One iteration of the loop at lines 363 to 385 for row index n, acting
on the state (category column, next category counter).  A category value
none models the initial -1; an assigned category str(c) is modelled as
some c. -/
def coarseStep (rows : List (GeoRow A)) (side_square : ℕ)
    (st : List (Option ℕ) × ℕ) (n : ℕ) :
    Except String (List (Option ℕ) × ℕ) :=
  if st.1.getD n none = none then
    let filtered := filteredAt rows st.1 n
    let uniq := np_unique (filtered.map (fun t => t.2.1))
    match maxOfList (uniq.take (2 * side_square)) with
    | none => .error "zero-size array to reduction operation maximum"
    | some maxDist =>
      let indexes := (filtered.filter (fun t => decide (t.2.1 ≤ maxDist))).map
        (fun t => t.1)
      .ok (assignCats st.1 indexes st.2, st.2 + 1)
  else .ok st

/-- The loop of lines 363 to 385 over a list of row indices, propagating
the np.max exception. -/
def coarseLoop (rows : List (GeoRow A)) (side_square : ℕ) :
    List ℕ → (List (Option ℕ) × ℕ) → Except String (List (Option ℕ) × ℕ)
  | [], st => .ok st
  | n :: ns, st =>
    match coarseStep rows side_square st n with
    | .error e => .error e
    | .ok st' => coarseLoop rows side_square ns st'

/-- The category-assignment phase of coarse_dataframe (lines 359 to 385):
category column initialised to -1 (none) for every row, counter starting
at 0, loop over all row indices in order. -/
def coarse_dataframe_categories (rows : List (GeoRow A)) (side_square : ℕ) :
    Except String (List (Option ℕ) × ℕ) :=
  coarseLoop rows side_square (List.range rows.length)
    (List.replicate rows.length none, 0)

/-- The composite grouping key of lines 388 to 390: category joined with
date, the key the dissolve groups by.  Row i belongs to the block keyed by
(category of i, date of i). -/
def blockKeys (rows : List (GeoRow A)) (cats : List (Option ℕ)) :
    List (Option ℕ × String) :=
  List.zip cats (rows.map (fun r => r.date))

end Coarse

/-- C6: during fixed-schema ingestion, the RuntimeError (with the message
of lines 94 and 140) is raised if and only if more than one existing row
matches the uniqueness key of the record being added: the (date, lat,
long) triple for a vegetation record, the date alone for a weather
entry. -/
theorem ingestion_runtime_error_iff (df : List VegRow) (c : String)
    (sp : SpacePoint) (wdf : List WeatherRow) (d : String)
    (vals : List (String × ℚ)) :
    (addVegRecord df c sp =
        .error (.runtimeError "Error when building DataFrame, check input json.") ↔
      1 < countTriple df sp.date sp.latitude sp.longitude) ∧
    (addWeatherEntry wdf d (some vals) =
        .error (.runtimeError "Error when building DataFrame, check input json.") ↔
      1 < countDateRows wdf d) := by
  constructor
  · rcases hc : countTriple df sp.date sp.latitude sp.longitude with _ | _ | m
    · simp [addVegRecord, hc]
    · simp [addVegRecord, hc]
    · have h2 : 1 < m + 2 := by omega
      simp [addVegRecord, hc, h2]
  · rcases hc : countDateRows wdf d with _ | _ | m
    · rcases vals with _ | ⟨p, ps⟩ <;> simp [addWeatherEntry, hc]
    · simp [addWeatherEntry, hc]
    · have h2 : 1 < m + 2 := by omega
      simp [addWeatherEntry, hc, h2]

/-- C7 (amended): for a path at which no file exists, both ingestion entry
points raise FileNotFoundError before any processing, but the exception
carries no message at all (the raise statements at lines 31 and 173 are
bare), so in particular the message does not include the resolved path. -/
theorem missing_file_raises (fs : List String) (filename : String)
    (dataF : List Collection)
    (dataV : List (String × List (String × Option (List (String × JVal)))))
    (h : fs.contains filename = false) :
    read_json_to_dataframe fs filename dataF = .error (.fileNotFound "") ∧
    variable_read_json_to_dataframe fs filename dataV =
      .error (.fileNotFound "") := by
  constructor
  · unfold read_json_to_dataframe
    rw [h]
    simp
  · unfold variable_read_json_to_dataframe
    rw [h]
    simp

/-- Witness for missing_file_raises at a concrete missing path. -/
theorem missing_file_raises_witness :
    read_json_to_dataframe [] "/data/results_summary.json" [] =
      .error (.fileNotFound "") :=
  (missing_file_raises [] "/data/results_summary.json" [] [] rfl).1

/-- C7 (counterexample to the claim as stated): on an empty filesystem
both entry points return a FileNotFoundError whose message is the empty
string, and the empty string does not contain the requested absolute path
as a substring, contradicting the claim that the message includes the
resolved path of the missing file. -/
theorem missing_file_message_lacks_path :
    read_json_to_dataframe [] "/data/results_summary.json" [] =
      .error (.fileNotFound "") ∧
    variable_read_json_to_dataframe [] "/data/results_summary.json" [] =
      .error (.fileNotFound "") ∧
    ¬ ("/data/results_summary.json".data <:+: ("" : String).data) :=
  ⟨rfl, rfl, by decide⟩

/-- C9 (code bug): convert_to_geopandas evaluated on a one-row table.
The call returns None rather than the augmented table (the body has no
return statement, contradicting the docstring of lines 228 to 231 and the
tests, which use the returned value as a dataframe), and it mutates the
input table in place by adding the geometry column, so it is neither a
table-returning function nor pure. -/
theorem convert_to_geopandas_returns_none :
    (convert_to_geopandas [⟨0, 1, none⟩]).1 = none ∧
    (convert_to_geopandas [⟨0, 1, none⟩]).2 = [⟨0, 1, some (0, 1)⟩] ∧
    (convert_to_geopandas [⟨0, 1, none⟩]).2 ≠ [⟨0, 1, none⟩] := by
  refine ⟨rfl, rfl, ?_⟩
  intro h
  simp [convert_to_geopandas] at h

/-- C3 (code bug): evaluation of the category loop at the failing input of
three collinear points (0,0), (3,0), (4,0) on one date with block size 1.
The filter at line 373 tests the category of the current row n (always
unassigned) instead of the category of each candidate row i, so already
assigned rows are never discarded: here row 1, assigned to category 0 in
the first iteration, is reassigned to category 1 in the iteration seeded
by row 2, whereas under the claimed behaviour (assigned rows discarded,
only unassigned rows labelled) row 1 would keep category 0. -/
theorem coarse_filter_keeps_assigned_rows :
    coarse_dataframe_categories
      ([⟨"d", 0, 0⟩, ⟨"d", 3, 0⟩, ⟨"d", 4, 0⟩] : List (GeoRow ℤ)) 1 =
    .ok ([some 0, some 1, some 1], 2) := by decide

/-- C8: per-collection ingestion of one date entry.  A null or empty entry
emits no row; an entry whose values are all sub-location objects emits one
row per sub-location, each row being that object itself; an entry of flat
per-date metrics (no object values) emits exactly one row, the entry with
the date field injected into it.  (The source decides the second case by
inspecting only the first value, line 196, which under the schema of
homogeneous entries coincides with all values being objects.) -/
theorem variable_read_entry_rows (rows : List JVal) (date : String)
    (tp : Option (List (String × JVal))) :
    ((tp = none ∨ tp = some []) → processEntry rows date tp = rows) ∧
    (∀ fields, tp = some fields → fields ≠ [] →
      (∀ f ∈ fields, isObj f.2 = true) →
      processEntry rows date tp = rows ++ fields.map (fun p => p.2)) ∧
    (∀ fields, tp = some fields → fields ≠ [] →
      (∀ f ∈ fields, isObj f.2 = false) →
      processEntry rows date tp =
        rows ++ [JVal.obj (setJField fields "date" (JVal.str date))]) := by
  refine ⟨?_, ?_, ?_⟩
  · rintro (rfl | rfl) <;> rfl
  · rintro fields rfl hne hall
    rcases fields with _ | ⟨f, fs⟩
    · exact absurd rfl hne
    · have hf := hall f (by simp)
      simp [processEntry, hf]
  · rintro fields rfl hne hall
    rcases fields with _ | ⟨f, fs⟩
    · exact absurd rfl hne
    · have hf := hall f (by simp)
      simp [processEntry, hf]

/-- Witness for variable_read_entry_rows: a two-sub-location entry emits
exactly the two sub-location objects as rows. -/
theorem variable_read_entry_rows_witness :
    processEntry [] "2020-01-01"
      (some [("s1", JVal.obj [("offset50", JVal.num 1)]),
             ("s2", JVal.obj [("offset50", JVal.num 2)])]) =
    [JVal.obj [("offset50", JVal.num 1)], JVal.obj [("offset50", JVal.num 2)]] := by
  have h := (variable_read_entry_rows [] "2020-01-01"
      (some [("s1", JVal.obj [("offset50", JVal.num 1)]),
             ("s2", JVal.obj [("offset50", JVal.num 2)])])).2.1
      [("s1", JVal.obj [("offset50", JVal.num 1)]),
       ("s2", JVal.obj [("offset50", JVal.num 2)])] rfl (by simp)
      (by simp [isObj])
  simpa using h

/-- The record with the given collection name and triple occurs among the
vegetation records: the condition under which a veg_df row for the triple
exists. -/
def vegHasTriple (recs : List (String × SpacePoint)) (d : String)
    (la lo : ℚ) : Bool :=
  recs.any (fun rc =>
    decide (rc.2.date = d ∧ rc.2.latitude = la ∧ rc.2.longitude = lo))

/-- The metric value the cell (triple, column) should hold after
ingestion: the offset50 of the last record bearing that triple whose
collection produces that column name (later records overwrite earlier
ones), none when no such record exists. -/
def lastVal (recs : List (String × SpacePoint)) (d : String) (la lo : ℚ)
    (col : String) : Option ℚ :=
  ((recs.filter (fun rc =>
    decide (rc.1 ++ "_offset50" = col ∧ rc.2.date = d ∧
      rc.2.latitude = la ∧ rc.2.longitude = lo))).getLast?).map
    (fun rc => rc.2.offset50)

/-- The invariant of the vegetation ingestion loop: after processing the
records recs, each triple occurring in recs owns exactly one row and no
other triple owns any, and every cell of every row holds the last value
written to it. -/
abbrev VegInv (recs : List (String × SpacePoint)) (df : List VegRow) : Prop :=
  (∀ d la lo, countTriple df d la lo =
    if vegHasTriple recs d la lo then 1 else 0) ∧
  (∀ r ∈ df, ∀ col,
    lookupMetric r.metrics col = lastVal recs r.date r.lat r.long col)

theorem lookupMetric_setMetric (ms : List (String × ℚ)) (k : String) (v : ℚ)
    (k' : String) :
    lookupMetric (setMetric ms k v) k' =
      if k' = k then some v else lookupMetric ms k' := by
  induction ms with
  | nil =>
    by_cases h : k' = k
    · subst h; simp [setMetric, lookupMetric]
    · have h2 : ¬ k = k' := fun hh => h hh.symm
      simp [setMetric, lookupMetric, h, h2]
  | cons p rest ih =>
    obtain ⟨k0, v0⟩ := p
    by_cases h0 : k0 = k
    · subst h0
      by_cases h : k' = k0
      · subst h; simp [setMetric, lookupMetric]
      · have h2 : ¬ k0 = k' := fun hh => h hh.symm
        simp [setMetric, lookupMetric, h, h2]
    · by_cases h1 : k0 = k'
      · subst h1
        simp [setMetric, lookupMetric, h0]
      · simp only [setMetric, if_neg h0]
        have hstep : ∀ (tl : List (String × ℚ)),
            lookupMetric ((k0, v0) :: tl) k' = lookupMetric tl k' := by
          intro tl
          unfold lookupMetric
          rw [List.find?_cons]
          simp [h1]
        rw [hstep, hstep]
        exact ih

theorem countTriple_append (df1 df2 : List VegRow) (d : String) (la lo : ℚ) :
    countTriple (df1 ++ df2) d la lo =
      countTriple df1 d la lo + countTriple df2 d la lo := by
  simp [countTriple]

theorem countTriple_singleton (r : VegRow) (d : String) (la lo : ℚ) :
    countTriple [r] d la lo =
      if r.date = d ∧ r.lat = la ∧ r.long = lo then 1 else 0 := by
  by_cases h : r.date = d ∧ r.lat = la ∧ r.long = lo <;>
    simp [countTriple, h]

theorem countTriple_map_update (df : List VegRow) (f : VegRow → VegRow)
    (hf : ∀ r, (f r).date = r.date ∧ (f r).lat = r.lat ∧ (f r).long = r.long)
    (d : String) (la lo : ℚ) :
    countTriple (df.map f) d la lo = countTriple df d la lo := by
  induction df with
  | nil => rfl
  | cons r rest ih =>
    obtain ⟨h1, h2, h3⟩ := hf r
    simp only [List.map_cons]
    by_cases h : r.date = d ∧ r.lat = la ∧ r.long = lo
    · have h' : (f r).date = d ∧ (f r).lat = la ∧ (f r).long = lo := by
        rw [h1, h2, h3]; exact h
      simp [countTriple, h, h', List.filter_cons] at ih ⊢
      omega
    · have h' : ¬ ((f r).date = d ∧ (f r).lat = la ∧ (f r).long = lo) := by
        rw [h1, h2, h3]; exact h
      simp [countTriple, h, h', List.filter_cons] at ih ⊢
      exact ih

theorem countTriple_zero_not_mem (df : List VegRow) (d : String) (la lo : ℚ)
    (h : countTriple df d la lo = 0) :
    ∀ r ∈ df, ¬ (r.date = d ∧ r.lat = la ∧ r.long = lo) := by
  intro r hr hm
  have hmem : r ∈ df.filter (fun r =>
      decide (r.date = d ∧ r.lat = la ∧ r.long = lo)) :=
    List.mem_filter.mpr ⟨hr, by simpa using hm⟩
  have hpos : 0 < countTriple df d la lo :=
    List.length_pos.mpr (List.ne_nil_of_mem hmem)
  omega

theorem vegHasTriple_append (recs : List (String × SpacePoint))
    (rc : String × SpacePoint) (d : String) (la lo : ℚ) :
    vegHasTriple (recs ++ [rc]) d la lo =
      (vegHasTriple recs d la lo ||
        decide (rc.2.date = d ∧ rc.2.latitude = la ∧ rc.2.longitude = lo)) := by
  simp [vegHasTriple]

theorem lastVal_append (recs : List (String × SpacePoint))
    (rc : String × SpacePoint) (d : String) (la lo : ℚ) (col : String) :
    lastVal (recs ++ [rc]) d la lo col =
      if rc.1 ++ "_offset50" = col ∧ rc.2.date = d ∧
          rc.2.latitude = la ∧ rc.2.longitude = lo
      then some rc.2.offset50 else lastVal recs d la lo col := by
  unfold lastVal
  rw [List.filter_append]
  by_cases h : rc.1 ++ "_offset50" = col ∧ rc.2.date = d ∧
      rc.2.latitude = la ∧ rc.2.longitude = lo
  · simp [h]
  · simp [h]

theorem lastVal_none_of_not_has (recs : List (String × SpacePoint))
    (d : String) (la lo : ℚ) (col : String)
    (h : vegHasTriple recs d la lo = false) :
    lastVal recs d la lo col = none := by
  unfold lastVal
  have hnil : recs.filter (fun rc =>
      decide (rc.1 ++ "_offset50" = col ∧ rc.2.date = d ∧
        rc.2.latitude = la ∧ rc.2.longitude = lo)) = [] := by
    simp only [vegHasTriple, List.any_eq_false, decide_eq_true_eq] at h
    apply List.filter_eq_nil_iff.mpr
    intro rc hrc
    simp only [decide_eq_true_eq]
    rintro ⟨h1, h2, h3, h4⟩
    exact h rc hrc ⟨h2, h3, h4⟩
  rw [hnil]
  rfl

theorem vegInv_nil : VegInv [] [] := by
  constructor
  · intro d la lo
    simp [countTriple, vegHasTriple]
  · intro r hr
    simp at hr

theorem addVegRecord_inv (recs : List (String × SpacePoint)) (df : List VegRow)
    (c : String) (sp : SpacePoint) (h : VegInv recs df) :
    ∃ df', addVegRecord df c sp = .ok df' ∧ VegInv (recs ++ [(c, sp)]) df' := by
  obtain ⟨hcount, hcells⟩ := h
  cases hb : vegHasTriple recs sp.date sp.latitude sp.longitude with
  | false =>
    have hm : countTriple df sp.date sp.latitude sp.longitude = 0 := by
      have hx := hcount sp.date sp.latitude sp.longitude
      rw [hb] at hx
      simpa using hx
    refine ⟨df ++ [⟨sp.date, sp.latitude, sp.longitude,
      [(c ++ "_offset50", sp.offset50)]⟩], ?_, ?_, ?_⟩
    · simp [addVegRecord, hm]
    · intro d la lo
      rw [countTriple_append, countTriple_singleton, vegHasTriple_append]
      by_cases ht : sp.date = d ∧ sp.latitude = la ∧ sp.longitude = lo
      · obtain ⟨h1, h2, h3⟩ := ht
        subst h1; subst h2; subst h3
        simp [hm, hb]
      · simp [ht, hcount d la lo]
    · intro r hr col
      rw [lastVal_append]
      rcases List.mem_append.mp hr with hro | hrn
      · have hnm := countTriple_zero_not_mem df sp.date sp.latitude
          sp.longitude hm r hro
        rw [if_neg ?_]
        · exact hcells r hro col
        · rintro ⟨hcol, h2, h3, h4⟩
          exact hnm ⟨h2.symm, h3.symm, h4.symm⟩
      · have hrn' : r = ⟨sp.date, sp.latitude, sp.longitude,
            [(c ++ "_offset50", sp.offset50)]⟩ := by simpa using hrn
        subst hrn'
        by_cases hcol : c ++ "_offset50" = col
        · rw [if_pos ⟨hcol, rfl, rfl, rfl⟩]
          simp [lookupMetric, hcol]
        · rw [if_neg (by rintro ⟨h1, _⟩; exact hcol h1)]
          rw [lastVal_none_of_not_has recs _ _ _ _ hb]
          simp [lookupMetric, hcol]
  | true =>
    have hm : countTriple df sp.date sp.latitude sp.longitude = 1 := by
      have hx := hcount sp.date sp.latitude sp.longitude
      rw [hb] at hx
      simpa using hx
    have hf : ∀ r : VegRow,
        ((if r.date = sp.date ∧ r.lat = sp.latitude ∧ r.long = sp.longitude then
          (⟨r.date, r.lat, r.long,
            setMetric r.metrics (c ++ "_offset50") sp.offset50⟩ : VegRow)
        else r)).date = r.date ∧
        ((if r.date = sp.date ∧ r.lat = sp.latitude ∧ r.long = sp.longitude then
          (⟨r.date, r.lat, r.long,
            setMetric r.metrics (c ++ "_offset50") sp.offset50⟩ : VegRow)
        else r)).lat = r.lat ∧
        ((if r.date = sp.date ∧ r.lat = sp.latitude ∧ r.long = sp.longitude then
          (⟨r.date, r.lat, r.long,
            setMetric r.metrics (c ++ "_offset50") sp.offset50⟩ : VegRow)
        else r)).long = r.long := by
      intro r
      by_cases hmr : r.date = sp.date ∧ r.lat = sp.latitude ∧ r.long = sp.longitude <;>
        simp [hmr]
    refine ⟨df.map (fun r =>
      if r.date = sp.date ∧ r.lat = sp.latitude ∧ r.long = sp.longitude then
        ⟨r.date, r.lat, r.long,
          setMetric r.metrics (c ++ "_offset50") sp.offset50⟩
      else r), ?_, ?_, ?_⟩
    · simp [addVegRecord, hm]
    · intro d la lo
      rw [countTriple_map_update _ _ hf, vegHasTriple_append]
      by_cases ht : sp.date = d ∧ sp.latitude = la ∧ sp.longitude = lo
      · obtain ⟨h1, h2, h3⟩ := ht
        subst h1; subst h2; subst h3
        simp [hm, hb]
      · simp [ht, hcount d la lo]
    · intro r' hr' col
      rcases List.mem_map.mp hr' with ⟨r, hr, rfl⟩
      by_cases hmr : r.date = sp.date ∧ r.lat = sp.latitude ∧ r.long = sp.longitude
      · simp only [if_pos hmr]
        rw [lastVal_append, lookupMetric_setMetric]
        by_cases hcol : col = c ++ "_offset50"
        · rw [if_pos hcol, if_pos ⟨hcol.symm, hmr.1.symm, hmr.2.1.symm, hmr.2.2.symm⟩]
        · rw [if_neg hcol, if_neg (fun hh => hcol hh.1.symm)]
          exact hcells r hr col
      · simp only [if_neg hmr]
        rw [lastVal_append, if_neg ?_]
        · exact hcells r hr col
        · rintro ⟨h1, h2, h3, h4⟩
          exact hmr ⟨h2.symm, h3.symm, h4.symm⟩

theorem ingestVegRecords_inv :
    ∀ (rest : List (String × SpacePoint)) (recs : List (String × SpacePoint))
      (df : List VegRow), VegInv recs df →
      ∃ df', ingestVegRecords rest df = .ok df' ∧ VegInv (recs ++ rest) df' := by
  intro rest
  induction rest with
  | nil =>
    intro recs df h
    exact ⟨df, rfl, by simpa using h⟩
  | cons rc rest ih =>
    obtain ⟨cn, sp⟩ := rc
    intro recs df h
    obtain ⟨df1, hok, hinv⟩ := addVegRecord_inv recs df cn sp h
    obtain ⟨df', hok', hinv'⟩ := ih (recs ++ [(cn, sp)]) df1 hinv
    refine ⟨df', ?_, ?_⟩
    · simp [ingestVegRecords, hok, hok']
    · simpa [List.append_assoc] using hinv'

/-- C2: fixed-schema vegetation ingestion keyed by (date, lat, long).  For
every input, ingestion succeeds and yields a table in which a triple owns
exactly one row exactly when some vegetation record bears it (a new
distinct triple creates one new row, a repeated triple merges into the
existing row), and every metric cell of every row holds the offset50 value
of the last record for that triple and collection column (later records
add or overwrite the column), none when no such record exists, so each row
carries the union of the metric columns of its records. -/
theorem read_json_veg_row_identity (data : List Collection) :
    ∃ df, ingestVeg data = .ok df ∧
      (∀ d la lo, countTriple df d la lo =
        if vegHasTriple (vegRecords data) d la lo then 1 else 0) ∧
      (∀ r ∈ df, ∀ col,
        lookupMetric r.metrics col =
          lastVal (vegRecords data) r.date r.lat r.long col) := by
  obtain ⟨df, hok, hinv⟩ :=
    ingestVegRecords_inv (vegRecords data) [] [] vegInv_nil
  refine ⟨df, hok, ?_, ?_⟩
  · intro d la lo
    have hx := hinv.1 d la lo
    simpa using hx
  · intro r hr col
    have hx := hinv.2 r hr col
    simpa using hx

theorem mem_vegMergeRows (wdf : List WeatherRow) (v : VegRow) (m : MergedRow)
    (hm : m ∈ vegMergeRows wdf v) : m.date = v.date ∧ m.vegPart = some v := by
  unfold vegMergeRows at hm
  by_cases h : (wdf.filter (fun w => decide (w.date = v.date))).length = 0
  · simp only [h, if_pos rfl] at hm
    simp at hm
    subst hm
    exact ⟨rfl, rfl⟩
  · simp only [if_neg h] at hm
    obtain ⟨w, _, rfl⟩ := List.mem_map.mp hm
    exact ⟨rfl, rfl⟩

theorem vegMergeRows_ne_nil (wdf : List WeatherRow) (v : VegRow) :
    vegMergeRows wdf v ≠ [] := by
  unfold vegMergeRows
  by_cases h : (wdf.filter (fun w => decide (w.date = v.date))).length = 0
  · simp [h]
  · simp only [if_neg h]
    intro hcon
    rw [List.map_eq_nil_iff] at hcon
    rw [hcon] at h
    exact h rfl

/-- C5 (counterexample to the claim as stated): a vegetation table with two
sub-location rows on the same date d1 outer-merged with an empty weather
table yields two merged rows for d1, not exactly one: the outer join on
date repeats a date once per vegetation row bearing it. -/
theorem merged_export_duplicate_date :
    (([⟨"d1", 0, 0, []⟩, ⟨"d1", 0, 1, []⟩] : List VegRow).any
      (fun v => decide (v.date = "d1")) = true) ∧
    ((mergeOuter [⟨"d1", 0, 0, []⟩, ⟨"d1", 0, 1, []⟩] []).filter
      (fun m => decide (m.date = "d1"))).length = 2 ∧
    ((mergeOuter [⟨"d1", 0, 0, []⟩, ⟨"d1", 0, 1, []⟩] []).filter
      (fun m => decide (m.date = "d1"))).length ≠ 1 := by decide

/-- C5 (amended): the merged export table is keyed by date alone via an
outer join: every date present in either table appears in the result (at
least once, not exactly once: a date recurs once per vegetation row
bearing it, crossed with its matching weather rows), and the other side
columns are null for dates present in only one table. -/
theorem merged_export_date_keyed (vdf : List VegRow) (wdf : List WeatherRow)
    (d : String) :
    ((vdf.any (fun v => decide (v.date = d)) = true ∨
      wdf.any (fun w => decide (w.date = d)) = true) →
      ∃ m ∈ mergeOuter vdf wdf, m.date = d) ∧
    (wdf.any (fun w => decide (w.date = d)) = false →
      ∀ m ∈ mergeOuter vdf wdf, m.date = d → m.weatherPart = none) ∧
    (vdf.any (fun v => decide (v.date = d)) = false →
      ∀ m ∈ mergeOuter vdf wdf, m.date = d → m.vegPart = none) := by
  have hveg : vdf.any (fun v => decide (v.date = d)) = true →
      ∃ m ∈ mergeOuter vdf wdf, m.date = d := by
    intro hv
    simp only [List.any_eq_true, decide_eq_true_eq] at hv
    obtain ⟨v, hvmem, hvd⟩ := hv
    obtain ⟨m, hm⟩ := List.exists_mem_of_ne_nil _ (vegMergeRows_ne_nil wdf v)
    refine ⟨m, ?_, ?_⟩
    · unfold mergeOuter
      apply List.mem_append_left
      exact List.mem_flatten.mpr
        ⟨vegMergeRows wdf v, List.mem_map_of_mem _ hvmem, hm⟩
    · rw [(mem_vegMergeRows wdf v m hm).1, hvd]
  refine ⟨?_, ?_, ?_⟩
  · rintro (hv | hw)
    · exact hveg hv
    · by_cases hv : vdf.any (fun v => decide (v.date = d)) = true
      · exact hveg hv
      · simp only [List.any_eq_true, decide_eq_true_eq] at hw
        obtain ⟨w, hwmem, hwd⟩ := hw
        have hfilt : w ∈ wdf.filter (fun w =>
            decide (¬ vdf.any (fun v => decide (v.date = w.date)))) := by
          apply List.mem_filter.mpr
          refine ⟨hwmem, ?_⟩
          simp only [decide_eq_true_eq]
          rw [hwd]
          simpa using hv
        refine ⟨⟨w.date, none, some w⟩, ?_, hwd⟩
        unfold mergeOuter
        apply List.mem_append_right
        exact List.mem_map_of_mem _ hfilt
  · intro hw m hm hmd
    simp only [List.any_eq_false, decide_eq_true_eq] at hw
    unfold mergeOuter at hm
    rcases List.mem_append.mp hm with hm | hm
    · obtain ⟨l, hl, hml⟩ := List.mem_flatten.mp hm
      obtain ⟨v, hv, rfl⟩ := List.mem_map.mp hl
      have hvd : v.date = d := by
        rw [← (mem_vegMergeRows wdf v m hml).1, hmd]
      have hnone : wdf.filter (fun w => decide (w.date = v.date)) = [] := by
        apply List.filter_eq_nil_iff.mpr
        intro w hwmem
        simp only [decide_eq_true_eq]
        rw [hvd]
        exact hw w hwmem
      unfold vegMergeRows at hml
      rw [hnone] at hml
      simp at hml
      subst hml
      rfl
    · exfalso
      obtain ⟨w, hwf, rfl⟩ := List.mem_map.mp hm
      exact hw w (List.mem_filter.mp hwf).1 hmd
  · intro hv m hm hmd
    simp only [List.any_eq_false, decide_eq_true_eq] at hv
    unfold mergeOuter at hm
    rcases List.mem_append.mp hm with hm | hm
    · exfalso
      obtain ⟨l, hl, hml⟩ := List.mem_flatten.mp hm
      obtain ⟨v, hvmem, rfl⟩ := List.mem_map.mp hl
      have hvd : v.date = d := by
        rw [← (mem_vegMergeRows wdf v m hml).1, hmd]
      exact hv v hvmem hvd
    · obtain ⟨w, hwf, rfl⟩ := List.mem_map.mp hm
      rfl

/-- Witness for merged_export_date_keyed: a date present in the vegetation
side appears in the merged result. -/
theorem merged_export_date_keyed_witness :
    ∃ m ∈ mergeOuter [⟨"d1", 0, 0, []⟩] [], m.date = "d1" :=
  (merged_export_date_keyed [⟨"d1", 0, 0, []⟩] [] "d1").1 (Or.inl (by decide))

theorem length_filter_eq_one_of_nodup {l : List String} (hnd : l.Nodup)
    {d : String} (hd : d ∈ l) :
    (l.filter (fun x => decide (x = d))).length = 1 := by
  induction l with
  | nil => cases hd
  | cons a l ih =>
    rcases List.mem_cons.mp hd with rfl | hdl
    · have hnotl : d ∉ l := (List.nodup_cons.mp hnd).1
      have hnil : l.filter (fun x => decide (x = d)) = [] := by
        apply List.filter_eq_nil_iff.mpr
        intro x hx
        simp only [decide_eq_true_eq]
        rintro rfl
        exact hnotl hx
      simp [List.filter_cons, hnil]
    · have hne : ¬ a = d := by
        rintro rfl
        exact (List.nodup_cons.mp hnd).1 hdl
      have ih' := ih (List.nodup_cons.mp hnd).2 hdl
      simp [List.filter_cons, hne, ih']

theorem lookupCell_map_cols (l : List String) (f : String → Option ℚ)
    (c : String) (hc : c ∈ l) :
    lookupCell (l.map (fun c' => (c', f c'))) c = some (f c) := by
  induction l with
  | nil => cases hc
  | cons a as ih =>
    by_cases hac : a = c
    · subst hac
      simp [lookupCell, List.find?_cons]
    · rcases List.mem_cons.mp hc with h | hmem
      · exact absurd h.symm hac
      · have hstep : lookupCell ((a, f a) :: as.map (fun c' => (c', f c'))) c =
            lookupCell (as.map (fun c' => (c', f c'))) c := by
          unfold lookupCell
          rw [List.find?_cons]
          simp [hac]
        rw [List.map_cons, hstep]
        exact ih hmem

theorem find?_renamed_eq (l : List String) (hoff : "offset50" ∈ l)
    (hnostd : "offset50_std" ∉ l) :
    l.find? (fun c =>
      decide ((if c = "offset50" then "offset50_std" else c) =
        "offset50_std")) = some "offset50" := by
  induction l with
  | nil => cases hoff
  | cons a as ih =>
    rw [List.find?_cons]
    by_cases ha : a = "offset50"
    · subst ha
      simp
    · have ha2 : ¬ a = "offset50_std" := by
        intro hcon
        exact hnostd (hcon ▸ List.mem_cons_self a as)
      have hpred : (decide ((if a = "offset50" then "offset50_std" else a) =
          "offset50_std")) = false := by
        rw [if_neg ha]
        simp [ha2]
      simp only [hpred]
      rcases List.mem_cons.mp hoff with h | hm
      · exact absurd h.symm ha
      · exact ih hm (fun hcon => hnostd (List.mem_cons_of_mem a hcon))

theorem stdSourceCol_eq_offset50 (df : List TSRow)
    (hoff : "offset50" ∈ colNames df)
    (hnostd : "offset50_std" ∉ colNames df) :
    stdSourceCol df = some "offset50" :=
  find?_renamed_eq (colNames df) hoff hnostd

theorem aggRowsOf_unique_row (df : List TSRow) (c : String) (d : String)
    (hd : d ∈ df.map (fun r => r.date)) :
    ((aggRowsOf df c).filter (fun r => decide (r.date = d))).length = 1 := by
  unfold aggRowsOf
  rw [List.filter_map, List.length_map]
  have hcong : List.filter ((fun (r : AggRow) => decide (r.date = d)) ∘
      (fun d' => (⟨d', groupbyMean df d',
        sampleStd (groupVals df d' c)⟩ : AggRow))) (groupDates df) =
      List.filter (fun d' => decide (d' = d)) (groupDates df) := by
    apply List.filter_congr
    intro x _
    simp [Function.comp]
  rw [hcong]
  have hnd : (groupDates df).Nodup := by
    unfold groupDates
    exact List.nodup_dedup _
  have hmem : d ∈ groupDates df := by
    unfold groupDates
    exact List.mem_dedup.mpr hd
  exact length_filter_eq_one_of_nodup hnd hmem

/-- C4 (counterexample to the claim as stated): on a table carrying two
metric columns, offset50 and ndvi, the aggregation keeps the standard
deviation of offset50 only.  The aggregated row holds a mean cell for
both metrics but a single std column, whose value is the sample std of
the offset50 values; that value differs from the sample std of the ndvi
values, so the output carries no ndvi_std column holding the ndvi sample
standard deviation, contradicting the claimed companion std column per
metric. -/
theorem aggregation_std_not_per_metric :
    colNames [⟨"d", [("offset50", 1), ("ndvi", 5)]⟩,
              ⟨"d", [("offset50", 3), ("ndvi", 9)]⟩] = ["offset50", "ndvi"] ∧
    aggregateByDate [⟨"d", [("offset50", 1), ("ndvi", 5)]⟩,
                     ⟨"d", [("offset50", 3), ("ndvi", 9)]⟩] =
      .ok [⟨"d", [("offset50", some (qmean [1, 3])),
                  ("ndvi", some (qmean [5, 9]))],
            sampleStd [1, 3]⟩] ∧
    sampleStd [1, 3] ≠ sampleStd [5, 9] := by
  refine ⟨by decide, rfl, ?_⟩
  have hA : sumSqDev [1, 3] = 2 := by
    norm_num [sumSqDev, qmean]
  have hB : sumSqDev [5, 9] = 8 := by
    norm_num [sumSqDev, qmean]
  intro heq
  simp only [sampleStd] at heq
  norm_num at heq
  rw [hA, hB] at heq
  norm_num at heq

/-- C4 (amended): temporal aggregation of a vegetation collection table
that carries its offset50 column (and no column already named
offset50_std).  make_time_series replaces the table by its per-date
aggregation, which holds exactly one row per present date; that row
carries one mean cell per numeric metric column, equal to the mean of the
values the date group holds in that column; but the only companion
standard-deviation column is offset50_std, the slice at line 272
discarding the std of every other metric.  offset50_std holds the sample
standard deviation of the offset50 group values: NaN (none) exactly when
the group holds fewer than two offset50 values (k = 1 for a singleton
group), otherwise the nonnegative real whose square is the sum of squared
deviations over k - 1. -/
theorem time_series_aggregation (name : String) (df : List TSRow) (d : String)
    (hname : isVegCollection name = true)
    (hd : d ∈ df.map (fun r => r.date))
    (hoff : "offset50" ∈ colNames df)
    (hnostd : "offset50_std" ∉ colNames df) :
    make_time_series [(name, df)] =
      .ok [(name, Sum.inr (aggRowsOf df "offset50"))] ∧
    ((aggRowsOf df "offset50").filter
      (fun r => decide (r.date = d))).length = 1 ∧
    (∀ r ∈ aggRowsOf df "offset50", r.date = d →
      (∀ c ∈ colNames df, groupVals df d c ≠ [] →
        lookupCell r.means c =
          some (some ((groupVals df d c).sum /
            ((groupVals df d c).length : ℚ)))) ∧
      (r.offset50_std = none ↔ (groupVals df d "offset50").length ≤ 1) ∧
      (∀ s : ℝ, r.offset50_std = some s →
        0 ≤ s ∧ s * s = sumSqDev (groupVals df d "offset50") /
          (((groupVals df d "offset50").length : ℝ) - 1))) := by
  have hsrc : stdSourceCol df = some "offset50" :=
    stdSourceCol_eq_offset50 df hoff hnostd
  refine ⟨?_, aggRowsOf_unique_row df "offset50" d hd, ?_⟩
  · simp [make_time_series, hname, aggregateByDate, hsrc]
  · intro r hr hrd
    unfold aggRowsOf at hr
    obtain ⟨d', hd', rfl⟩ := List.mem_map.mp hr
    have hdd : d' = d := hrd
    subst hdd
    refine ⟨?_, ?_, ?_⟩
    · intro c hc hne
      show lookupCell (groupbyMean df d') c = _
      unfold groupbyMean
      rw [lookupCell_map_cols _ _ c hc]
      rw [if_neg (by simpa using hne)]
      rfl
    · show sampleStd (groupVals df d' "offset50") = none ↔ _
      constructor
      · intro hnone
        by_contra hgt
        have hgt2 : ¬ (groupVals df d' "offset50").length ≤ 1 := hgt
        simp [sampleStd, hgt2] at hnone
      · intro hle
        simp [sampleStd, hle]
    · intro s hs
      have hs0 : sampleStd (groupVals df d' "offset50") = some s := hs
      by_cases hle : (groupVals df d' "offset50").length ≤ 1
      · simp [sampleStd, hle] at hs0
      · simp only [sampleStd, if_neg hle, Option.some.injEq] at hs0
        rw [← hs0]
        constructor
        · exact Real.sqrt_nonneg _
        · apply Real.mul_self_sqrt
          apply div_nonneg
          · apply List.sum_nonneg
            intro x hx
            obtain ⟨v, hv, rfl⟩ := List.mem_map.mp hx
            exact mul_self_nonneg _
          · have h2 : 2 ≤ (groupVals df d' "offset50").length := by omega
            have h2r : (2 : ℝ) ≤ ((groupVals df d' "offset50").length : ℝ) := by
              exact_mod_cast h2
            linarith

/-- Witness for time_series_aggregation: two offset50 rows on one date
aggregate to a single output row for that date. -/
theorem time_series_aggregation_witness :
    ((aggRowsOf [⟨"2020-01-01", [("offset50", 1)]⟩,
                 ⟨"2020-01-01", [("offset50", 3)]⟩] "offset50").filter
      (fun r => decide (r.date = "2020-01-01"))).length = 1 :=
  (time_series_aggregation "COPERNICUS/S2"
    [⟨"2020-01-01", [("offset50", 1)]⟩, ⟨"2020-01-01", [("offset50", 3)]⟩]
    "2020-01-01" (by decide) (by decide) (by decide) (by decide)).2.1

section CoarseProofs

variable {A : Type} [LinearOrderedRing A]

theorem insertTriple_perm (t : ℕ × A × Option ℕ) (l : List (ℕ × A × Option ℕ)) :
    (insertTriple t l).Perm (t :: l) := by
  induction l with
  | nil => exact List.Perm.refl _
  | cons u us ih =>
    unfold insertTriple
    by_cases h : t.2.1 ≤ u.2.1
    · rw [if_pos h]
    · rw [if_neg h]
      exact (ih.cons u).trans (List.Perm.swap t u us)

theorem sortTriples_perm (l : List (ℕ × A × Option ℕ)) :
    (sortTriples l).Perm l := by
  induction l with
  | nil => exact List.Perm.refl _
  | cons t ts ih =>
    unfold sortTriples
    exact (insertTriple_perm t (sortTriples ts)).trans (ih.cons t)

theorem insertVal_perm (x : A) (l : List A) : (insertVal x l).Perm (x :: l) := by
  induction l with
  | nil => exact List.Perm.refl _
  | cons y ys ih =>
    unfold insertVal
    by_cases h : x ≤ y
    · rw [if_pos h]
    · rw [if_neg h]
      exact (ih.cons y).trans (List.Perm.swap x y ys)

theorem sortVals_perm (l : List A) : (sortVals l).Perm l := by
  induction l with
  | nil => exact List.Perm.refl _
  | cons x xs ih =>
    unfold sortVals
    exact (insertVal_perm x (sortVals xs)).trans (ih.cons x)

theorem mem_of_mem_np_unique {l : List A} {x : A} (h : x ∈ np_unique l) :
    x ∈ l :=
  (sortVals_perm l).mem_iff.mp ((List.destutter_sublist _ _).subset h)

theorem np_unique_ne_nil {l : List A} (h : l ≠ []) : np_unique l ≠ [] := by
  unfold np_unique
  intro hcon
  have hs : sortVals l = [] := (List.destutter_eq_nil _).mp hcon
  exact h ((sortVals_perm l).symm.trans (hs ▸ List.Perm.refl _)).eq_nil

theorem take_ne_nil_of_pos {B : Type} {l : List B} {n : ℕ} (hl : l ≠ [])
    (hn : 0 < n) : l.take n ≠ [] := by
  cases l with
  | nil => exact absurd rfl hl
  | cons x xs =>
    cases n with
    | zero => omega
    | succ m => simp

theorem maxOfList_eq_none_iff (l : List A) : maxOfList l = none ↔ l = [] := by
  cases l <;> simp [maxOfList]

theorem foldl_max_mem (xs : List A) : ∀ x : A, xs.foldl max x ∈ x :: xs := by
  induction xs with
  | nil => intro x; simp
  | cons a as ih =>
    intro x
    simp only [List.foldl_cons]
    rcases List.mem_cons.mp (ih (max x a)) with h | h
    · rw [h]
      rcases max_choice x a with hm | hm
      · rw [hm]
        exact List.mem_cons_self _ _
      · rw [hm]
        exact List.mem_cons_of_mem _ (List.mem_cons_self _ _)
    · exact List.mem_cons_of_mem _ (List.mem_cons_of_mem _ h)

theorem le_foldl_max (xs : List A) : ∀ (x y : A), y ∈ x :: xs → y ≤ xs.foldl max x := by
  induction xs with
  | nil =>
    intro x y hy
    simp at hy
    simp [hy]
  | cons a as ih =>
    intro x y hy
    simp only [List.foldl_cons]
    rcases List.mem_cons.mp hy with rfl | hy'
    · exact le_trans (le_max_left y a) (ih (max y a) _ (List.mem_cons_self _ _))
    · rcases List.mem_cons.mp hy' with rfl | hy''
      · exact le_trans (le_max_right x y) (ih (max x y) _ (List.mem_cons_self _ _))
      · exact ih (max x a) y (List.mem_cons_of_mem _ hy'')

theorem maxOfList_mem {l : List A} {m : A} (h : maxOfList l = some m) :
    m ∈ l := by
  cases l with
  | nil => cases h
  | cons x xs =>
    have hm : xs.foldl max x = m := by
      simpa [maxOfList] using h
    rw [← hm]
    exact foldl_max_mem xs x

theorem le_maxOfList {l : List A} {m : A} (h : maxOfList l = some m) :
    ∀ y ∈ l, y ≤ m := by
  cases l with
  | nil => cases h
  | cons x xs =>
    have hm : xs.foldl max x = m := by
      simpa [maxOfList] using h
    intro y hy
    rw [← hm]
    exact le_foldl_max xs x y hy

theorem getD_set_eq (l : List (Option ℕ)) (i j : ℕ) (v : Option ℕ) :
    (l.set i v).getD j none =
      if i = j ∧ i < l.length then v else l.getD j none := by
  simp only [List.getD_eq_getElem?_getD, List.getElem?_set]
  by_cases hij : i = j
  · subst hij
    by_cases hlen : i < l.length
    · simp [hlen]
    · rw [if_pos rfl, if_neg hlen, if_neg (fun hq => hlen hq.2)]
      rw [List.getElem?_eq_none (by omega)]
  · simp [hij]

theorem assignCats_length (cats : List (Option ℕ)) (idxs : List ℕ) (c : ℕ) :
    (assignCats cats idxs c).length = cats.length := by
  induction idxs generalizing cats with
  | nil => rfl
  | cons i is ih =>
    show (assignCats (cats.set i (some c)) is c).length = cats.length
    rw [ih (cats.set i (some c)), List.length_set]

theorem assignCats_getD (cats : List (Option ℕ)) (idxs : List ℕ) (c : ℕ)
    (j : ℕ) :
    (assignCats cats idxs c).getD j none =
      if j ∈ idxs ∧ j < cats.length then some c else cats.getD j none := by
  induction idxs generalizing cats with
  | nil => simp [assignCats]
  | cons i is ih =>
    show (assignCats (cats.set i (some c)) is c).getD j none = _
    rw [ih (cats.set i (some c)), List.length_set, getD_set_eq]
    by_cases h1 : j ∈ is ∧ j < cats.length
    · rw [if_pos h1, if_pos ⟨List.mem_cons_of_mem i h1.1, h1.2⟩]
    · rw [if_neg h1]
      by_cases h2 : i = j ∧ i < cats.length
      · rw [if_pos h2, if_pos ⟨h2.1 ▸ List.mem_cons_self i is, h2.1 ▸ h2.2⟩]
      · rw [if_neg h2, if_neg ?_]
        rintro ⟨hmem, hlt⟩
        rcases List.mem_cons.mp hmem with rfl | hmemis
        · exact h2 ⟨rfl, hlt⟩
        · exact h1 ⟨hmemis, hlt⟩

theorem sqDist_self (a : GeoRow A) : sqDist a a = 0 := by
  simp [sqDist]

theorem sqDist_nonneg (a b : GeoRow A) : 0 ≤ sqDist a b :=
  add_nonneg (mul_self_nonneg _) (mul_self_nonneg _)

theorem mem_distancesAt_self (rows : List (GeoRow A)) (cats : List (Option ℕ))
    (n : ℕ) (hn : n < rows.length) :
    (n, (0 : A), cats.getD n none) ∈ distancesAt rows cats n := by
  unfold distancesAt
  apply List.mem_map.mpr
  refine ⟨n, List.mem_range.mpr hn, ?_⟩
  rw [sqDist_self]

theorem mem_distancesAt_shape (rows : List (GeoRow A)) (cats : List (Option ℕ))
    (n : ℕ) (t : ℕ × A × Option ℕ) (ht : t ∈ distancesAt rows cats n) :
    0 ≤ t.2.1 ∧ t.2.2 = cats.getD n none := by
  unfold distancesAt at ht
  obtain ⟨i, _, rfl⟩ := List.mem_map.mp ht
  exact ⟨sqDist_nonneg _ _, rfl⟩

theorem filteredAt_eq_sorted (rows : List (GeoRow A)) (cats : List (Option ℕ))
    (n : ℕ) (h : cats.getD n none = none) :
    filteredAt rows cats n = sortTriples (distancesAt rows cats n) := by
  unfold filteredAt
  apply List.filter_eq_self.mpr
  intro t ht
  have ht' := (sortTriples_perm (distancesAt rows cats n)).mem_iff.mp ht
  have hshape := (mem_distancesAt_shape rows cats n t ht').2
  rw [hshape, h]
  simp

end CoarseProofs

section CoarseMain

variable {A : Type} [LinearOrderedRing A]

theorem coarseStep_eq_of_max (rows : List (GeoRow A)) (side_square : ℕ)
    (st : List (Option ℕ) × ℕ) (n : ℕ) (maxDist : A)
    (h : st.1.getD n none = none)
    (hmax : maxOfList ((np_unique ((filteredAt rows st.1 n).map
      (fun t => t.2.1))).take (2 * side_square)) = some maxDist) :
    coarseStep rows side_square st n = .ok
      (assignCats st.1 (((filteredAt rows st.1 n).filter
        (fun t => decide (t.2.1 ≤ maxDist))).map (fun t => t.1)) st.2,
       st.2 + 1) := by
  unfold coarseStep
  rw [if_pos h]
  simp only [hmax]

theorem coarseStep_eq_of_max_none (rows : List (GeoRow A)) (side_square : ℕ)
    (st : List (Option ℕ) × ℕ) (n : ℕ)
    (h : st.1.getD n none = none)
    (hmax : maxOfList ((np_unique ((filteredAt rows st.1 n).map
      (fun t => t.2.1))).take (2 * side_square)) = none) :
    coarseStep rows side_square st n =
      .error "zero-size array to reduction operation maximum" := by
  unfold coarseStep
  rw [if_pos h]
  simp only [hmax]

theorem coarseStep_ok (rows : List (GeoRow A)) (side_square : ℕ)
    (st : List (Option ℕ) × ℕ) (n : ℕ) (hn : n < rows.length)
    (hside : 1 ≤ side_square) (hlen : st.1.length = rows.length) :
    ∃ st', coarseStep rows side_square st n = .ok st' ∧
      st'.1.length = rows.length ∧
      (∀ i, st.1.getD i none ≠ none → st'.1.getD i none ≠ none) ∧
      st'.1.getD n none ≠ none := by
  by_cases h : st.1.getD n none = none
  · have hfe := filteredAt_eq_sorted rows st.1 n h
    have hdne : distancesAt rows st.1 n ≠ [] := by
      intro hcon
      have hm := mem_distancesAt_self rows st.1 n hn
      rw [hcon] at hm
      exact absurd hm (List.not_mem_nil _)
    have hfne : filteredAt rows st.1 n ≠ [] := by
      rw [hfe]
      intro hcon
      have hp : ([] : List (ℕ × A × Option ℕ)).Perm (distancesAt rows st.1 n) :=
        hcon ▸ sortTriples_perm _
      exact hdne hp.symm.eq_nil
    have hmapne : (filteredAt rows st.1 n).map (fun t => t.2.1) ≠ [] := by
      simpa using hfne
    have htake : ((np_unique ((filteredAt rows st.1 n).map
        (fun t => t.2.1))).take (2 * side_square)) ≠ [] :=
      take_ne_nil_of_pos (np_unique_ne_nil hmapne) (by omega)
    obtain ⟨maxDist, hmax⟩ : ∃ m, maxOfList ((np_unique
        ((filteredAt rows st.1 n).map (fun t => t.2.1))).take
        (2 * side_square)) = some m := by
      cases hmx : maxOfList ((np_unique ((filteredAt rows st.1 n).map
          (fun t => t.2.1))).take (2 * side_square)) with
      | none => exact absurd ((maxOfList_eq_none_iff _).mp hmx) htake
      | some m => exact ⟨m, rfl⟩
    have h0le : (0 : A) ≤ maxDist := by
      have hmem := maxOfList_mem hmax
      have hmemu := List.take_subset _ _ hmem
      have hmemmap := mem_of_mem_np_unique hmemu
      obtain ⟨t, htf, heq⟩ := List.mem_map.mp hmemmap
      rw [← heq]
      rw [hfe] at htf
      exact (mem_distancesAt_shape rows st.1 n t
        ((sortTriples_perm _).mem_iff.mp htf)).1
    have hnmem : (n, (0 : A), (none : Option ℕ)) ∈ filteredAt rows st.1 n := by
      rw [hfe]
      apply (sortTriples_perm _).mem_iff.mpr
      have hm := mem_distancesAt_self rows st.1 n hn
      rw [h] at hm
      exact hm
    refine ⟨(assignCats st.1 (((filteredAt rows st.1 n).filter
        (fun t => decide (t.2.1 ≤ maxDist))).map (fun t => t.1)) st.2,
        st.2 + 1),
      coarseStep_eq_of_max rows side_square st n maxDist h hmax, ?_, ?_, ?_⟩
    · dsimp only
      rw [assignCats_length, hlen]
    · intro i hi
      dsimp only at hi ⊢
      rw [assignCats_getD]
      by_cases hc : i ∈ ((filteredAt rows st.1 n).filter
          (fun t => decide (t.2.1 ≤ maxDist))).map (fun t => t.1) ∧
          i < st.1.length
      · rw [if_pos hc]
        simp
      · rw [if_neg hc]
        exact hi
    · dsimp only
      rw [assignCats_getD]
      have hnidx : n ∈ ((filteredAt rows st.1 n).filter
          (fun t => decide (t.2.1 ≤ maxDist))).map (fun t => t.1) := by
        apply List.mem_map.mpr
        refine ⟨(n, (0 : A), (none : Option ℕ)), ?_, rfl⟩
        apply List.mem_filter.mpr
        refine ⟨hnmem, ?_⟩
        simpa using h0le
      rw [if_pos ⟨hnidx, by omega⟩]
      simp
  · refine ⟨st, ?_, hlen, fun i hi => hi, h⟩
    unfold coarseStep
    rw [if_neg h]

theorem coarseLoop_ok (rows : List (GeoRow A)) (side_square : ℕ)
    (hside : 1 ≤ side_square) :
    ∀ (ns : List ℕ) (st : List (Option ℕ) × ℕ),
      (∀ n ∈ ns, n < rows.length) → st.1.length = rows.length →
      ∃ st', coarseLoop rows side_square ns st = .ok st' ∧
        st'.1.length = rows.length ∧
        (∀ i, st.1.getD i none ≠ none → st'.1.getD i none ≠ none) ∧
        (∀ n ∈ ns, st'.1.getD n none ≠ none) := by
  intro ns
  induction ns with
  | nil =>
    intro st _ hlen
    exact ⟨st, rfl, hlen, fun i hi => hi, by simp⟩
  | cons n ns ih =>
    intro st hns hlen
    obtain ⟨st1, hok1, hlen1, hpres1, hn1⟩ :=
      coarseStep_ok rows side_square st n (hns n (by simp)) hside hlen
    obtain ⟨st', hok', hlen', hpres', hns'⟩ :=
      ih st1 (fun m hm => hns m (by simp [hm])) hlen1
    refine ⟨st', ?_, hlen', fun i hi => hpres' i (hpres1 i hi), ?_⟩
    · simp [coarseLoop, hok1, hok']
    · intro m hm
      rcases List.mem_cons.mp hm with rfl | hm'
      · exact hpres' m hn1
      · exact hns' m hm'

/-- C1: for every geometry table and block size at least 1, the category
loop of coarse_dataframe succeeds and assigns every row exactly one final
category (no row left unassigned), so partitioning the rows by the
composite (category, date) block key is a true partition: summing the
member counts of the distinct block keys gives back the total number of
rows, no row omitted and none in two blocks. -/
theorem coarse_dataframe_partition (rows : List (GeoRow A)) (side_square : ℕ)
    (hside : 1 ≤ side_square) :
    ∃ cats category,
      coarse_dataframe_categories rows side_square = .ok (cats, category) ∧
      cats.length = rows.length ∧
      (∀ c ∈ cats, c ≠ none) ∧
      (((blockKeys rows cats).dedup.map
        (fun key => ((blockKeys rows cats).filter
          (fun k => decide (k = key))).length)).sum = rows.length) := by
  obtain ⟨st', hok, hlen, _, hass⟩ := coarseLoop_ok rows side_square hside
    (List.range rows.length) (List.replicate rows.length none, 0)
    (fun n hn => List.mem_range.mp hn) (by simp)
  obtain ⟨cats, category⟩ := st'
  replace hlen : cats.length = rows.length := hlen
  replace hass : ∀ n ∈ List.range rows.length, cats.getD n none ≠ none := hass
  refine ⟨cats, category, hok, hlen, ?_, ?_⟩
  · intro c hc
    obtain ⟨i, hi, hieq⟩ := List.getElem_of_mem hc
    have hass' := hass i (List.mem_range.mpr (by omega))
    intro hcnone
    apply hass'
    rw [List.getD_eq_getElem?_getD, List.getElem?_eq_getElem hi, hieq,
      hcnone]
    rfl
  · have hkeylen : (blockKeys rows cats).length = rows.length := by
      unfold blockKeys
      rw [List.length_zip, List.length_map, hlen, min_self]
    rw [← hkeylen]
    have hpt : ∀ key : Option ℕ × String,
        ((blockKeys rows cats).filter (fun k => decide (k = key))).length =
        @List.count _ instBEqOfDecidableEq key (blockKeys rows cats) := by
      intro key
      exact (List.countP_eq_length_filter _ _).symm
    rw [show (fun key => ((blockKeys rows cats).filter
        (fun k => decide (k = key))).length) =
        fun x => @List.count _ instBEqOfDecidableEq x (blockKeys rows cats)
      from funext hpt]
    exact List.sum_map_count_dedup_eq_length (blockKeys rows cats)

/-- Witness for coarse_dataframe_partition at three integer points. -/
theorem coarse_dataframe_partition_witness :
    ∃ cats category,
      coarse_dataframe_categories
        ([⟨"d", 0, 0⟩, ⟨"d", 3, 0⟩, ⟨"d", 4, 0⟩] : List (GeoRow ℤ)) 1 =
        .ok (cats, category) ∧
      cats.length =
        ([⟨"d", 0, 0⟩, ⟨"d", 3, 0⟩, ⟨"d", 4, 0⟩] : List (GeoRow ℤ)).length ∧
      (∀ c ∈ cats, c ≠ none) ∧
      (((blockKeys ([⟨"d", 0, 0⟩, ⟨"d", 3, 0⟩, ⟨"d", 4, 0⟩] : List (GeoRow ℤ))
          cats).dedup.map
        (fun key => ((blockKeys
          ([⟨"d", 0, 0⟩, ⟨"d", 3, 0⟩, ⟨"d", 4, 0⟩] : List (GeoRow ℤ))
          cats).filter (fun k => decide (k = key))).length)).sum =
        ([⟨"d", 0, 0⟩, ⟨"d", 3, 0⟩, ⟨"d", 4, 0⟩] : List (GeoRow ℤ)).length) :=
  coarse_dataframe_partition _ 1 (by decide)

/-- C10: in the clustering loop the candidate distance list after the
filter always contains the current unassigned row itself at distance 0, so
for any block size at least 1 the np.max call always receives a nonempty
array and the whole loop returns without hitting the error branch; the
precondition really is needed, for with side_square equal to 0 the slice
of the first 2 * side_square distinct distances is empty and np.max raises
on the first unassigned row of any nonempty table. -/
theorem coarse_max_nonempty (rows : List (GeoRow A)) (side_square : ℕ) :
    (∀ (cats : List (Option ℕ)) (n : ℕ), n < rows.length →
      cats.getD n none = none →
      (n, (0 : A), (none : Option ℕ)) ∈ filteredAt rows cats n) ∧
    (1 ≤ side_square →
      ∃ st', coarse_dataframe_categories rows side_square = .ok st') ∧
    (rows ≠ [] →
      ∃ e, coarse_dataframe_categories rows 0 = .error e) := by
  refine ⟨?_, ?_, ?_⟩
  · intro cats n hn hcat
    rw [filteredAt_eq_sorted rows cats n hcat]
    apply (sortTriples_perm _).mem_iff.mpr
    have hm := mem_distancesAt_self rows cats n hn
    rw [hcat] at hm
    exact hm
  · intro hside
    obtain ⟨st', hok, _, _, _⟩ := coarseLoop_ok rows side_square hside
      (List.range rows.length) (List.replicate rows.length none, 0)
      (fun n hn => List.mem_range.mp hn) (by simp)
    exact ⟨st', hok⟩
  · intro hne
    obtain ⟨r0, rest, rfl⟩ : ∃ r0 rest, rows = r0 :: rest := by
      cases rows with
      | nil => exact absurd rfl hne
      | cons a l => exact ⟨a, l, rfl⟩
    have hzero : (List.replicate (r0 :: rest).length
        (none : Option ℕ)).getD 0 none = none := by
      simp
    have hstep : coarseStep (r0 :: rest) 0
        (List.replicate (r0 :: rest).length none, 0) 0 =
        .error "zero-size array to reduction operation maximum" := by
      apply coarseStep_eq_of_max_none
      · exact hzero
      · simp [maxOfList]
    refine ⟨"zero-size array to reduction operation maximum", ?_⟩
    unfold coarse_dataframe_categories
    have hrange : List.range (r0 :: rest).length =
        0 :: (List.range rest.length).map Nat.succ := by
      rw [List.length_cons, List.range_succ_eq_map]
    rw [hrange]
    simp only [List.length_cons] at hstep
    simp [coarseLoop, hstep]

/-- Witness for coarse_max_nonempty at a one-point integer table. -/
theorem coarse_max_nonempty_witness :
    (((0 : ℕ), (0 : ℤ), (none : Option ℕ)) ∈
      filteredAt ([⟨"d", 0, 0⟩] : List (GeoRow ℤ)) [none] 0) ∧
    (∃ st', coarse_dataframe_categories
      ([⟨"d", 0, 0⟩] : List (GeoRow ℤ)) 1 = .ok st') ∧
    (∃ e, coarse_dataframe_categories
      ([⟨"d", 0, 0⟩] : List (GeoRow ℤ)) 0 = .error e) :=
  ⟨(coarse_max_nonempty [⟨"d", 0, 0⟩] 1).1 [none] 0 (by decide) rfl,
   (coarse_max_nonempty [⟨"d", 0, 0⟩] 1).2.1 (by decide),
   (coarse_max_nonempty [⟨"d", 0, 0⟩] 0).2.2 (by simp)⟩

end CoarseMain
